import Mathlib

/-!
Verification of the Cribo/Serpen source-level bundler against its
natural-language specification.

The development has two layers:

* An embedding of the emitted bundle artifact `temp/hybrid_bundled.py`
  (wrapped-module init functions, module registry, init-function table and
  the `CriboBundledFinder` meta-path hook), translated statement by
  statement from that file.

* A model of the bundler pipeline itself (conflict planner, cycle
  analyzer, graph builder, emitter, discovery).  The bundler core is not
  part of the source tree (only its test fixtures and emitted artifacts
  are), so those definitions are modelled from the specification text and
  are marked as such in their doc comments.
-/

namespace Cribo

/-- Runtime values of the scripting language, at the granularity the
emitted bundle needs: ints, strings, lists of strings (the only list
literals in the bundle are `__all__` lists), function objects and class
objects (the latter two identified by a qualified tag). -/
inductive PyVal where
  | pint : Int → PyVal
  | pstr : String → PyVal
  | pstrlist : List String → PyVal
  | pfunc : String → PyVal
  | pclass : String → PyVal
  deriving DecidableEq

/-- A runtime module object: `types.ModuleType(name)` with `__file__` set
and an insertion-ordered attribute dictionary. -/
structure PyModule where
  pyName : String
  pyFile : String
  attrs : List (String × PyVal)
  deriving DecidableEq

/-- The runtime module table `sys.modules`, as an association list; the
most recent registration is found first. -/
abbrev SysModules := List (String × PyModule)

/-- Association-list lookup used for `sys.modules` and the emitted dict
literals. -/
def alookup {β : Type} (k : String) : List (String × β) → Option β
  | [] => none
  | (a, b) :: rest => if a = k then some b else alookup k rest

/-! ## The emitted bundle `temp/hybrid_bundled.py`

Each `__cribo_init_*` function below is translated from the function of
the same name in the artifact.  Mutation of the single module object is
flattened to its final state: the artifact creates the module object,
registers it under its synthetic id and under its original dotted name,
and then populates its attributes one by one, so after the call both
registry keys hold the fully populated object constructed here. -/

/-- Attributes set by `__cribo_init___cribo_ee784c_simple_module`, in
source order. -/
def simpleModuleAttrs : List (String × PyVal) :=
  [("__all__", .pstrlist ["public_func", "CONSTANT"]),
   ("public_func", .pfunc "simple_module.public_func"),
   ("_private_func", .pfunc "simple_module._private_func"),
   ("CONSTANT", .pint 42),
   ("_PRIVATE_CONSTANT", .pstr "secret"),
   ("InternalClass", .pclass "simple_module.InternalClass")]

/-- Attributes set by `__cribo_init___cribo_2657f2_nested_package`, in
source order. -/
def nestedPackageAttrs : List (String × PyVal) :=
  [("__all__", .pstrlist ["exported_from_init", "sub_function"]),
   ("exported_from_init", .pfunc "nested_package.exported_from_init"),
   ("_internal_init_func", .pfunc "nested_package._internal_init_func"),
   ("PACKAGE_CONSTANT", .pstr "from_package")]

/-- Attributes set by
`__cribo_init___cribo_e9952d_nested_package_submodule`, in source
order. -/
def submoduleAttrs : List (String × PyVal) :=
  [("__all__", .pstrlist ["sub_function", "SUB_CONSTANT"]),
   ("sub_function", .pfunc "nested_package.submodule.sub_function"),
   ("_private_sub_func", .pfunc "nested_package.submodule._private_sub_func"),
   ("SUB_CONSTANT", .pstr "submodule_value"),
   ("message", .pstr "from submodule")]

/-- Attributes set by `__cribo_init___cribo_62e3ba_nested_package_utils`,
in source order (this module has no `__all__`). -/
def utilsAttrs : List (String × PyVal) :=
  [("helper_func", .pfunc "nested_package.utils.helper_func"),
   ("another_helper", .pfunc "nested_package.utils.another_helper"),
   ("UTILS_CONSTANT", .pstr "utils value")]

/-- The shared shape of the emitted init functions: return the
already-registered module if the synthetic id is a key of `sys.modules`,
otherwise build the module object, register it under the synthetic id and
the original dotted name, populate it, and return it. -/
def runLeafInit (syn dotted file : String) (body : List (String × PyVal))
    (sys : SysModules) : PyModule × SysModules :=
  match alookup syn sys with
  | some m => (m, sys)
  | none =>
    let m : PyModule := ⟨syn, file, body⟩
    (m, (dotted, m) :: (syn, m) :: sys)

/-- `__cribo_init___cribo_341a42_main` (the entry module's init function;
its body only prints, so it sets no module attributes). -/
def cribo_init_main (sys : SysModules) : PyModule × SysModules :=
  runLeafInit "__cribo_341a42_main" "main"
    "crates/cribo/tests/fixtures/bundling/all_variable_handling/main.py" [] sys

/-- `__cribo_init___cribo_ee784c_simple_module`. -/
def cribo_init_simple_module (sys : SysModules) : PyModule × SysModules :=
  runLeafInit "__cribo_ee784c_simple_module" "simple_module"
    "all_variable_handling/simple_module.py" simpleModuleAttrs sys

/-- `__cribo_init___cribo_e9952d_nested_package_submodule`. -/
def cribo_init_nested_package_submodule (sys : SysModules) : PyModule × SysModules :=
  runLeafInit "__cribo_e9952d_nested_package_submodule" "nested_package.submodule"
    "all_variable_handling/nested_package/submodule.py" submoduleAttrs sys

/-- `__cribo_init___cribo_62e3ba_nested_package_utils`. -/
def cribo_init_nested_package_utils (sys : SysModules) : PyModule × SysModules :=
  runLeafInit "__cribo_62e3ba_nested_package_utils" "nested_package.utils"
    "all_variable_handling/nested_package/utils.py" utilsAttrs sys

/-- The host language's `import` statement for a dotted name the bundle
manages, as exercised by the relative imports inside
`__cribo_init___cribo_2657f2_nested_package`: the runtime first consults
`sys.modules`; on a miss it asks the installed meta-path finder, which
runs the init function when the synthetic module is not yet registered. -/
def importViaFinder (dotted syn : String)
    (initF : SysModules → PyModule × SysModules) (sys : SysModules) : SysModules :=
  if (alookup dotted sys).isSome then sys
  else if (alookup syn sys).isSome then sys
  else (initF sys).2

/-- `__cribo_init___cribo_2657f2_nested_package`: same two-step protocol,
but its body additionally executes `from .submodule import sub_function`
and `from .utils import helper_func` before populating its attributes. -/
def cribo_init_nested_package (sys : SysModules) : PyModule × SysModules :=
  match alookup "__cribo_2657f2_nested_package" sys with
  | some m => (m, sys)
  | none =>
    let m : PyModule := ⟨"__cribo_2657f2_nested_package",
      "all_variable_handling/nested_package/__init__.py", nestedPackageAttrs⟩
    let sys1 : SysModules :=
      ("nested_package", m) :: ("__cribo_2657f2_nested_package", m) :: sys
    let sys2 := importViaFinder "nested_package.submodule"
      "__cribo_e9952d_nested_package_submodule" cribo_init_nested_package_submodule sys1
    let sys3 := importViaFinder "nested_package.utils"
      "__cribo_62e3ba_nested_package_utils" cribo_init_nested_package_utils sys2
    (m, sys3)

/-- The `__cribo_modules` dict literal: original dotted name → synthetic
module id. -/
def criboModules : List (String × String) :=
  [("main", "__cribo_341a42_main"),
   ("simple_module", "__cribo_ee784c_simple_module"),
   ("nested_package", "__cribo_2657f2_nested_package"),
   ("nested_package.submodule", "__cribo_e9952d_nested_package_submodule"),
   ("nested_package.utils", "__cribo_62e3ba_nested_package_utils")]

/-- The `__cribo_init_functions` dict literal: synthetic module id → init
function. -/
def criboInitFunctions : List (String × (SysModules → PyModule × SysModules)) :=
  [("__cribo_341a42_main", cribo_init_main),
   ("__cribo_ee784c_simple_module", cribo_init_simple_module),
   ("__cribo_2657f2_nested_package", cribo_init_nested_package),
   ("__cribo_e9952d_nested_package_submodule", cribo_init_nested_package_submodule),
   ("__cribo_62e3ba_nested_package_utils", cribo_init_nested_package_utils)]

/-- `importlib.util.find_spec` restricted to the names the bundle manages:
synthetic modules exist only in `sys.modules` (they have no on-disk
source), so a spec resolving `name` is available exactly when `name` is
registered. -/
def importlibFindSpec (name : String) (sys : SysModules) : Option String :=
  if (alookup name sys).isSome then some name else none

/-- `CriboBundledFinder.find_spec`: if `fullname` is a key of the module
registry, look up its synthetic name; when the synthetic module is not in
`sys.modules`, fetch its init function from the table and run it if
present; finally resolve through `importlib.util.find_spec` on the
synthetic name.  Names outside the registry are declined (`None`). -/
def find_spec (module_registry : List (String × String))
    (init_functions : List (String × (SysModules → PyModule × SysModules)))
    (fullname : String) (sys : SysModules) : Option String × SysModules :=
  match alookup fullname module_registry with
  | some synthetic_name =>
      let sys' :=
        if (alookup synthetic_name sys).isSome then sys
        else
          match alookup synthetic_name init_functions with
          | some init_func => (init_func sys).2
          | none => sys
      (importlibFindSpec synthetic_name sys', sys')
  | none => (none, sys)

/-- The host runtime's star-import rule, as stated by the specification
(§8 "`__all__` honored", §4.F): with a static `__all__` list the
star-import binds exactly the listed names; otherwise it binds every
non-underscore-prefixed attribute. -/
def starImportBindings (m : PyModule) : List String :=
  match alookup "__all__" m.attrs with
  | some (.pstrlist names) => names
  | _ => (m.attrs.map Prod.fst).filter (fun n => !(n.startsWith "_"))

/-- A row of the wrapped-module table of the emitted bundle: synthetic id,
original dotted name, init function and the attributes its body
populates. -/
structure WrappedInit where
  syn : String
  dotted : String
  initF : SysModules → PyModule × SysModules
  bodyAttrs : List (String × PyVal)

/-- The five wrapped modules of `temp/hybrid_bundled.py`. -/
def bundleInits : List WrappedInit :=
  [⟨"__cribo_341a42_main", "main", cribo_init_main, []⟩,
   ⟨"__cribo_ee784c_simple_module", "simple_module", cribo_init_simple_module,
     simpleModuleAttrs⟩,
   ⟨"__cribo_2657f2_nested_package", "nested_package", cribo_init_nested_package,
     nestedPackageAttrs⟩,
   ⟨"__cribo_e9952d_nested_package_submodule", "nested_package.submodule",
     cribo_init_nested_package_submodule, submoduleAttrs⟩,
   ⟨"__cribo_62e3ba_nested_package_utils", "nested_package.utils",
     cribo_init_nested_package_utils, utilsAttrs⟩]

/-! ## Conflict planner (§4.G)

The planner itself is not part of the source tree (only its fixtures
are), so the definitions below are modelled from the specification. -/

/-- Modelled from the spec: a top-level binding of a module, §4.F/§4.G.
`origin` identifies the defining site of the value the binding denotes:
for a `def`/`class`/assignment it is the module itself with the local
name; for an import binding `from m import n` it is `m`'s binding `n`. -/
structure SymBinding where
  name : String
  origin : Nat × String
  deriving DecidableEq

/-- Modelled from the spec: the symbol table of one reached first-party
module, §4.G input.  `slug` is the module slug used to build collision
suffixes (§4.G step 3); the modules are supplied in planning order (entry
first, then topological order). -/
structure ModuleSyms where
  mid : Nat
  slug : String
  binds : List SymBinding
  deriving DecidableEq

/-- A row `(ModuleId, original_name) → emitted_name` of the rename plan
(§3 RenamePlan). -/
structure PlanRow where
  mid : Nat
  orig : String
  emitted : String
  deriving DecidableEq

/-- An emitted name already claimed during planning, with the origin of
the binding that claimed it; `none` marks a collision-suffixed name,
which is never shared. -/
structure TakenEntry where
  emitted : String
  origin : Option (Nat × String)
  deriving DecidableEq

/-- Accumulator of the planner: claimed names plus the rows produced so
far. -/
structure PlanState where
  taken : List TakenEntry
  rows : List PlanRow
  deriving DecidableEq

/-- Lookup of an emitted name among the claimed names. -/
def takenLookup (name : String) : List TakenEntry → Option TakenEntry
  | [] => none
  | e :: rest => if e.emitted = name then some e else takenLookup name rest

/-- Length of the longest claimed name; any longer string is fresh. -/
def maxKeyLen (keys : List String) : Nat :=
  keys.foldr (fun s acc => max s.length acc) 0

/-- A run of `n` underscores. -/
def underscorePad (n : Nat) : String :=
  String.mk (List.replicate n '_')

/-- Modelled from the spec, §4.G step 3: the deterministic collision
suffix `<name>_<module_slug>`; on a repeated collision the candidate is
re-derived until fresh (here by padding past every claimed name). -/
def chooseEmitted (taken : List TakenEntry) (slug name : String) : String :=
  if name ++ "_" ++ slug ∈ taken.map TakenEntry.emitted then
    name ++ "_" ++ slug ++ underscorePad (maxKeyLen (taken.map TakenEntry.emitted) + 1)
  else name ++ "_" ++ slug

/-- Modelled from the spec, §4.G steps 3–4: a binding keeps its name if
the name is unclaimed, or claimed by a binding of the same origin
(deliberate sharing through `from m import n`); a name claimed by a
different origin forces a deterministic suffix. -/
def planBinding (slug : String) (mid : Nat) (st : PlanState) (b : SymBinding) :
    PlanState :=
  match takenLookup b.name st.taken with
  | none =>
      ⟨st.taken ++ [⟨b.name, some b.origin⟩], st.rows ++ [⟨mid, b.name, b.name⟩]⟩
  | some e =>
      if e.origin = some b.origin then
        ⟨st.taken, st.rows ++ [⟨mid, b.name, b.name⟩]⟩
      else
        ⟨st.taken ++ [⟨chooseEmitted st.taken slug b.name, none⟩],
         st.rows ++ [⟨mid, b.name, chooseEmitted st.taken slug b.name⟩]⟩

/-- Plan all bindings of one module in declaration order. -/
def planModule (st : PlanState) (m : ModuleSyms) : PlanState :=
  m.binds.foldl (planBinding m.slug m.mid) st

/-- Modelled from the spec, §4.G: the module symbol tables are processed
in planning order starting from the empty state; the result is the rename
plan. -/
def computeRenamePlan (mods : List ModuleSyms) : List PlanRow :=
  (mods.foldl planModule ⟨[], []⟩).rows

/-- The key of a plan row. -/
def rowKey (r : PlanRow) : Nat × String := (r.mid, r.orig)

/-- §8 "Rename injectivity" as stated: rows mapping to the same emitted
name agree on module and original name. -/
def StrictInjective (rows : List PlanRow) : Prop :=
  ∀ r1 ∈ rows, ∀ r2 ∈ rows, r1.emitted = r2.emitted →
    r1.mid = r2.mid ∧ r1.orig = r2.orig

instance : DecidablePred StrictInjective := fun rows => by
  unfold StrictInjective
  infer_instance

/-- §3's RenamePlan invariant: two distinct rows share an emitted name
only when both are identity and their original names coincide. -/
def SharedOnlyDeliberately (rows : List PlanRow) : Prop :=
  ∀ r1 ∈ rows, ∀ r2 ∈ rows, r1.emitted = r2.emitted → rowKey r1 ≠ rowKey r2 →
    r1.emitted = r1.orig ∧ r2.emitted = r2.orig ∧ r1.orig = r2.orig

instance : DecidablePred SharedOnlyDeliberately := fun rows => by
  unfold SharedOnlyDeliberately
  infer_instance

/-- The emitted name the plan assigns to `(mid, n)`. -/
def planEmitted (rows : List PlanRow) (mid : Nat) (n : String) : Option String :=
  (rows.find? (fun r => r.mid == mid && r.orig == n)).map PlanRow.emitted

/-- The emitted name a cross-module reference resolves to: the renamed
binding of its origin (§4.G, "direct references to the renamed binding"). -/
def resolveOrigin (rows : List PlanRow) (origin : Nat × String) : Option String :=
  planEmitted rows origin.1 origin.2

/-- The planner invariant maintained while bindings are processed. -/
structure PlanInv (st : PlanState) : Prop where
  nodupKeys : (st.taken.map TakenEntry.emitted).Nodup
  rowsCovered : ∀ r ∈ st.rows, ∃ e ∈ st.taken, e.emitted = r.emitted
  reservedUnique : ∀ e ∈ st.taken, e.origin = none →
    ∀ r1 ∈ st.rows, ∀ r2 ∈ st.rows,
      r1.emitted = e.emitted → r2.emitted = e.emitted → r1 = r2
  identityOrReserved : ∀ r ∈ st.rows,
    r.emitted = r.orig ∨ ∃ e ∈ st.taken, e.emitted = r.emitted ∧ e.origin = none

/-- A two-module input in which module 2 contains the import binding
`from <module 1> import n` (§4.F records it under name `n` with origin in
module 1), the deliberate-sharing situation §3 allows. -/
def c1DemoMods : List ModuleSyms :=
  [⟨1, "m1", [⟨"n", (1, "n")⟩]⟩,
   ⟨2, "m2", [⟨"n", (1, "n")⟩]⟩]

/-- Symbol table of `class_name_collision/main.py`: the entry's bindings
are its four import aliases and `main`, in declaration order. -/
def mainCollisionSyms : ModuleSyms :=
  ⟨0, "main",
   [⟨"ModelUser", (1, "User")⟩, ⟨"ModelProduct", (1, "Product")⟩,
    ⟨"EntityUser", (2, "User")⟩, ⟨"EntityProduct", (2, "Product")⟩,
    ⟨"main", (0, "main")⟩]⟩

/-- Symbol table of `class_name_collision/models.py`: classes `User` and
`Product`, then `create_user`. -/
def modelsSyms : ModuleSyms :=
  ⟨1, "models",
   [⟨"User", (1, "User")⟩, ⟨"Product", (1, "Product")⟩,
    ⟨"create_user", (1, "create_user")⟩]⟩

/-- Symbol table of `class_name_collision/entities.py`: classes `User`
and `Product`, then `create_product`. -/
def entitiesSyms : ModuleSyms :=
  ⟨2, "entities",
   [⟨"User", (2, "User")⟩, ⟨"Product", (2, "Product")⟩,
    ⟨"create_product", (2, "create_product")⟩]⟩

/-- The rename plan for the class-name-collision fixture: entry first,
then `models` and `entities` in discovery order (§4.G steps 1–2), with
each module's dotted path as its slug. -/
def classCollisionPlan : List PlanRow :=
  computeRenamePlan [mainCollisionSyms, modelsSyms, entitiesSyms]

/-! ## Graph builder and cycle analyzer (§4.D, §4.E)

Like the planner, these components exist in the repository only through
their fixtures, so the definitions are modelled from the specification.
The fixture modules themselves are translated from the test fixture
sources under `crates/*/tests/fixtures/`. -/

/-- §3 ImportEdge scope: whether an import appears at module level or
inside a function body. -/
inductive ImportScope where
  | moduleLevel
  | functionLevel
  deriving DecidableEq

/-- §3 ImportEdge kind, restricted to the two forms the fixtures use. -/
inductive ImportKind where
  | importModule
  | fromImport
  deriving DecidableEq

/-- Modelled from the spec: a top-level statement of a source module at
the granularity the graph builder and cycle analyzer inspect — imports,
assignments with the names they read, and `def`/`class` statements whose
bodies may contain function-level from-imports. -/
inductive SrcStmt where
  | importTop : String → SrcStmt
  | fromImportTop : String → List String → SrcStmt
  | assign : String → List String → SrcStmt
  | funcDef : String → List (String × List String) → SrcStmt
  | classDef : String → SrcStmt
  deriving DecidableEq

/-- A first-party source module: dotted name plus top-level statements. -/
structure SrcModule where
  name : String
  stmts : List SrcStmt
  deriving DecidableEq

/-- A directed import edge of the module graph (§3 ImportEdge). -/
structure GraphEdge where
  src : String
  dst : String
  kind : ImportKind
  scope : ImportScope
  deriving DecidableEq

/-- Edges contributed by one statement (§4.D: every import is recorded,
even function-level ones). -/
def stmtEdges (src : String) : SrcStmt → List GraphEdge
  | .importTop m => [⟨src, m, .importModule, .moduleLevel⟩]
  | .fromImportTop m _ => [⟨src, m, .fromImport, .moduleLevel⟩]
  | .assign _ _ => []
  | .funcDef _ inner => inner.map (fun p => ⟨src, p.1, .fromImport, .functionLevel⟩)
  | .classDef _ => []

/-- All edges of one module, in statement order. -/
def srcModuleEdges (m : SrcModule) : List GraphEdge :=
  m.stmts.foldr (fun s acc => stmtEdges m.name s ++ acc) []

/-- The edge list of the module graph (§4.D). -/
def graphEdges (mods : List SrcModule) : List GraphEdge :=
  mods.foldr (fun m acc => srcModuleEdges m ++ acc) []

/-- §4.E: cycles are computed over module-level edges only. -/
def moduleLevelEdges (mods : List SrcModule) : List GraphEdge :=
  (graphEdges mods).filter (fun e => decide (e.scope = ImportScope.moduleLevel))

/-- Fuel-bounded reachability along a pair list; `mods.length` fuel
covers every simple path. -/
def reachesB (edges : List (String × String)) : Nat → String → String → Bool
  | 0, _, _ => false
  | fuel + 1, a, b =>
      edges.any (fun e => e.1 == a && (e.2 == b || reachesB edges fuel e.2 b))

/-- The module-level edge relation as source/target pairs. -/
def mlPairs (mods : List SrcModule) : List (String × String) :=
  (moduleLevelEdges mods).map (fun e => (e.src, e.dst))

/-- `a` and `b` lie on a common module-level cycle (same non-trivial
SCC, §4.E). -/
def sameScc (mods : List SrcModule) (a b : String) : Bool :=
  reachesB (mlPairs mods) mods.length a b && reachesB (mlPairs mods) mods.length b a

/-- `a` belongs to a non-singleton SCC of the module-level graph. -/
def inCycle (mods : List SrcModule) (a : String) : Bool :=
  mods.any (fun m => !(m.name == a) && sameScc mods a m.name)

/-- §4.E: an SCC is wrap-required when some intra-SCC module-level edge
is not a bare `import` (it carries a `from … import symbol`). -/
def sccWrapRequired (mods : List SrcModule) (a : String) : Bool :=
  (moduleLevelEdges mods).any (fun e =>
    sameScc mods a e.src && sameScc mods a e.dst &&
      !(e.kind == ImportKind.importModule))

/-- Names module `m` imports from `b` at module level. -/
def importedNamesFrom (m : SrcModule) (b : String) : List String :=
  m.stmts.foldr
    (fun s acc =>
      match s with
      | .fromImportTop mb names => if mb = b then names ++ acc else acc
      | _ => acc)
    []

/-- `ma` binds a module-level constant computed from names it imports at
module level from `b` (the "temporal paradox" edge of §4.E's terminal
rule). -/
def paradoxBinding (ma : SrcModule) (b : String) : Bool :=
  ma.stmts.any (fun s =>
    match s with
    | .assign _ uses => uses.any (fun u => (importedNamesFrom ma b).contains u)
    | _ => false)

/-- §4.E terminal rule: some wrap-required cycle contains a temporal
paradox edge. -/
def unresolvableCycleExists (mods : List SrcModule) : Bool :=
  mods.any (fun ma =>
    mods.any (fun mb =>
      !(ma.name == mb.name) && sameScc mods ma.name mb.name &&
        sccWrapRequired mods ma.name && paradoxBinding ma mb.name))

/-- §3 ModuleDisposition. -/
inductive Disposition where
  | inline
  | wrap
  deriving DecidableEq

/-- §4.E: members of wrap-required (non-singleton, non-bare-import) SCCs
are wrapped, everything else is inlined. -/
def dispositionOf (mods : List SrcModule) (a : String) : Disposition :=
  if inCycle mods a && sccWrapRequired mods a then .wrap else .inline

/-- §7 error taxonomy, restricted to the diagnostics the cycle analyzer
emits. -/
inductive BundleError where
  | unresolvableCycle
  deriving DecidableEq

/-- Modelled from the spec: the cycle analyzer either refuses the input
with `UnresolvableCycle` or returns the per-module dispositions. -/
def analyzeCycles (mods : List SrcModule) :
    Except BundleError (List (String × Disposition)) :=
  if unresolvableCycleExists mods then .error .unresolvableCycle
  else .ok (mods.map (fun m => (m.name, dispositionOf mods m.name)))

/-- §6 diagnostics contract: a refused bundle exits nonzero. -/
def bundlerExitCode (mods : List SrcModule) : Nat :=
  match analyzeCycles mods with
  | .error _ => 1
  | .ok _ => 0

/-- `unresolvable_patterns/constants_a.py`: `from constants_b import
B_VALUE`, module-level `A_VALUE = B_VALUE + 1`, then a function. -/
def constants_a : SrcModule :=
  ⟨"constants_a",
   [.fromImportTop "constants_b" ["B_VALUE"],
    .assign "A_VALUE" ["B_VALUE"],
    .funcDef "get_a_multiplier" []]⟩

/-- `unresolvable_patterns/constants_b.py`: `from constants_a import
A_VALUE`, module-level `B_VALUE = A_VALUE * 2`, then a function. -/
def constants_b : SrcModule :=
  ⟨"constants_b",
   [.fromImportTop "constants_a" ["A_VALUE"],
    .assign "B_VALUE" ["A_VALUE"],
    .funcDef "get_b_multiplier" []]⟩

/-- `mixed_cycles/function_module.py`: two functions, the first of which
imports `transform` from `helper_module` inside its body. -/
def function_module : SrcModule :=
  ⟨"function_module",
   [.funcDef "process_data" [("helper_module", ["transform"])],
    .funcDef "utility_function" []]⟩

/-- `xfail_mixed_cycles/helper_module.py`: one function importing
`utility_function` from `function_module` inside its body. -/
def helper_module : SrcModule :=
  ⟨"helper_module",
   [.funcDef "transform" [("function_module", ["utility_function"])]]⟩

/-- `utility_function()` from `function_module.py`: returns `"utility"`. -/
def utility_function : String := "utility"

/-- `transform(value)` from `helper_module.py`: `value + len(prefix)`
where the local variable holds `utility_function()`. -/
def transform (value : Int) : Int := value + (utility_function.length : Int)

/-- `process_data(value)` from `function_module.py`:
`transform(value) * 2`. -/
def process_data (value : Int) : Int := transform value * 2

/-! ## Emitter (§4.I) and discovery (§4.D)

Also modelled from the specification: the emitter's ordering rule and the
breadth-first discovery worklist. -/

/-- Statements of the emitted output at the granularity the ordering rule
needs. -/
inductive PyStmt where
  | futureImport : List String → PyStmt
  | importStmt : String → PyStmt
  | fromImport : String → List String → PyStmt
  | defStmt : String → PyStmt
  | assignStmt : String → PyStmt
  | other : String → PyStmt
  deriving DecidableEq

/-- Whether a statement is a `__future__` import. -/
def isFutureImport : PyStmt → Bool
  | .futureImport _ => true
  | _ => false

/-- The emitter's input sections in §4.I order: hoisted external imports,
wrapped-module init functions, registry and import-hook shim, transformed
inlined module bodies (topological order), entry body.  `__future__`
imports may still sit anywhere inside these sections (e.g. late in a
source module, as in the `late_future_imports` fixture). -/
structure EmitterInput where
  hoistedImports : List PyStmt
  wrappedInitFns : List PyStmt
  registryShim : List PyStmt
  inlinedModules : List (List PyStmt)
  entryBody : List PyStmt
  deriving DecidableEq

/-- All statements of the input in §4.I section order. -/
def allSectionStmts (inp : EmitterInput) : List PyStmt :=
  inp.hoistedImports ++ inp.wrappedInitFns ++ inp.registryShim ++
    inp.inlinedModules.foldr (· ++ ·) [] ++ inp.entryBody

/-- Modelled from the spec, §4.I ordering rule: every `__future__` import
of any source module is placed before everything else; the remaining
statements follow in section order. -/
def emitOutput (inp : EmitterInput) : List PyStmt :=
  (allSectionStmts inp).filter isFutureImport ++
    (allSectionStmts inp).filter (fun s => !(isFutureImport s))

/-- The `late_future_imports/main.py` fixture after transformation:
`import os` and `import sys` are hoisted, and the `__future__` import
still sits first inside the (unreordered) entry body section, late
relative to the hoisted imports. -/
def lateFutureEmitterInput : EmitterInput :=
  ⟨[.importStmt "os", .importStmt "sys"], [], [], [],
   [.futureImport ["annotations"], .defStmt "main", .other "ifmain"]⟩

/-- The bundler's declared inputs (§6). -/
structure BundleInput where
  entry : String
  firstPartyRoots : List String
  forcedThirdParty : List String
  targetVersion : Nat
  deriving DecidableEq

/-- Modelled from the spec, §4.D: breadth-first worklist; a popped module
already seen is skipped, a first-party module is appended to the
discovery order and its dependencies are enqueued in declaration order;
names outside the program (third-party or stdlib) enqueue nothing. -/
def discoverLoop (prog : List (String × List String)) :
    Nat → List String → List String → List String
  | 0, _, seen => seen
  | _ + 1, [], seen => seen
  | fuel + 1, q :: qs, seen =>
      if q ∈ seen then discoverLoop prog fuel qs seen
      else
        match alookup q prog with
        | none => discoverLoop prog fuel qs seen
        | some deps => discoverLoop prog fuel (qs ++ deps) (seen ++ [q])

/-- Enough fuel to drain every possible worklist of `prog`. -/
def discoveryFuel (prog : List (String × List String)) : Nat :=
  prog.foldr (fun p acc => p.2.length + 1 + acc) 0 + 1

/-- The reached first-party modules in discovery (insertion) order. -/
def discoverModules (prog : List (String × List String)) (entry : String) :
    List String :=
  discoverLoop prog (discoveryFuel prog) [entry] []

/-- §4.D: module IDs are small integers assigned in discovery order. -/
def assignModuleIds (mods : List String) : List (String × Nat) :=
  mods.enum.map (fun p => (p.2, p.1))

/-- The bundle artifact observed by the determinism property: the ordered
module list and the ID assignment, both functions of the declared
inputs. -/
def bundleArtifact (prog : List (String × List String)) (inp : BundleInput) :
    List String × List (String × Nat) :=
  (discoverModules prog inp.entry, assignModuleIds (discoverModules prog inp.entry))

/-! ## Lemmas about the init functions -/

theorem alookup_cons_self {β : Type} (k : String) (b : β) (l : List (String × β)) :
    alookup k ((k, b) :: l) = some b := by
  simp [alookup]

theorem alookup_cons_ne {β : Type} (k a : String) (b : β) (l : List (String × β))
    (h : a ≠ k) : alookup k ((a, b) :: l) = alookup k l := by
  simp [alookup, h]

theorem runLeafInit_cached (syn dotted file : String) (body : List (String × PyVal))
    (sys : SysModules) (m : PyModule) (h : alookup syn sys = some m) :
    runLeafInit syn dotted file body sys = (m, sys) := by
  simp [runLeafInit, h]

theorem runLeafInit_fresh (syn dotted file : String) (body : List (String × PyVal))
    (sys : SysModules) (h : alookup syn sys = none) :
    runLeafInit syn dotted file body sys =
      (⟨syn, file, body⟩, (dotted, ⟨syn, file, body⟩) :: (syn, ⟨syn, file, body⟩) :: sys) := by
  simp [runLeafInit, h]

theorem runLeafInit_registers (syn dotted file : String) (body : List (String × PyVal))
    (sys : SysModules) (h : alookup syn sys = none) (hne : dotted ≠ syn) :
    alookup syn (runLeafInit syn dotted file body sys).2 =
        some (runLeafInit syn dotted file body sys).1 ∧
      alookup dotted (runLeafInit syn dotted file body sys).2 =
        some (runLeafInit syn dotted file body sys).1 ∧
      (runLeafInit syn dotted file body sys).1.attrs = body := by
  rw [runLeafInit_fresh syn dotted file body sys h]
  refine ⟨?_, ?_, rfl⟩
  · rw [alookup_cons_ne syn dotted _ _ hne, alookup_cons_self]
  · rw [alookup_cons_self]

theorem runLeafInit_idem (syn dotted file : String) (body : List (String × PyVal))
    (sys : SysModules) (hne : dotted ≠ syn) :
    runLeafInit syn dotted file body (runLeafInit syn dotted file body sys).2 =
      runLeafInit syn dotted file body sys := by
  cases h : alookup syn sys with
  | some m =>
      rw [runLeafInit_cached syn dotted file body sys m h,
        runLeafInit_cached syn dotted file body sys m h]
  | none =>
      rw [runLeafInit_fresh syn dotted file body sys h]
      exact runLeafInit_cached syn dotted file body _ _
        (by rw [alookup_cons_ne syn dotted _ _ hne, alookup_cons_self])

theorem runLeafInit_other (syn dotted file : String) (body : List (String × PyVal))
    (sys : SysModules) (k : String) (h1 : syn ≠ k) (h2 : dotted ≠ k) :
    alookup k (runLeafInit syn dotted file body sys).2 = alookup k sys := by
  cases h : alookup syn sys with
  | some m => rw [runLeafInit_cached syn dotted file body sys m h]
  | none =>
      rw [runLeafInit_fresh syn dotted file body sys h,
        alookup_cons_ne k dotted _ _ h2, alookup_cons_ne k syn _ _ h1]

theorem importViaFinder_other (dotted syn : String)
    (initF : SysModules → PyModule × SysModules) (sys : SysModules) (k : String)
    (hpres : alookup k (initF sys).2 = alookup k sys) :
    alookup k (importViaFinder dotted syn initF sys) = alookup k sys := by
  unfold importViaFinder
  split
  · rfl
  · split
    · rfl
    · exact hpres

theorem cribo_init_nested_package_fresh (sys : SysModules)
    (h : alookup "__cribo_2657f2_nested_package" sys = none) :
    alookup "__cribo_2657f2_nested_package" (cribo_init_nested_package sys).2 =
        some (cribo_init_nested_package sys).1 ∧
      alookup "nested_package" (cribo_init_nested_package sys).2 =
        some (cribo_init_nested_package sys).1 ∧
      (cribo_init_nested_package sys).1.attrs = nestedPackageAttrs := by
  unfold cribo_init_nested_package
  rw [h]
  have hs : ∀ s : SysModules, ∀ k : String,
      k ≠ "nested_package.submodule" → k ≠ "__cribo_e9952d_nested_package_submodule" →
      alookup k (importViaFinder "nested_package.submodule"
        "__cribo_e9952d_nested_package_submodule" cribo_init_nested_package_submodule s) =
        alookup k s := by
    intro s k hk1 hk2
    exact importViaFinder_other _ _ _ _ _
      (runLeafInit_other _ _ _ _ _ _ (fun hc => hk2 hc.symm) (fun hc => hk1 hc.symm))
  have hu : ∀ s : SysModules, ∀ k : String,
      k ≠ "nested_package.utils" → k ≠ "__cribo_62e3ba_nested_package_utils" →
      alookup k (importViaFinder "nested_package.utils"
        "__cribo_62e3ba_nested_package_utils" cribo_init_nested_package_utils s) =
        alookup k s := by
    intro s k hk1 hk2
    exact importViaFinder_other _ _ _ _ _
      (runLeafInit_other _ _ _ _ _ _ (fun hc => hk2 hc.symm) (fun hc => hk1 hc.symm))
  refine ⟨?_, ?_, rfl⟩
  · rw [hu _ _ (by decide) (by decide), hs _ _ (by decide) (by decide),
      alookup_cons_ne _ "nested_package" _ _ (by decide), alookup_cons_self]
  · rw [hu _ _ (by decide) (by decide), hs _ _ (by decide) (by decide),
      alookup_cons_self]

theorem cribo_init_nested_package_cached (sys : SysModules) (m : PyModule)
    (h : alookup "__cribo_2657f2_nested_package" sys = some m) :
    cribo_init_nested_package sys = (m, sys) := by
  unfold cribo_init_nested_package
  rw [h]

theorem cribo_init_nested_package_idem (sys : SysModules) :
    cribo_init_nested_package (cribo_init_nested_package sys).2 =
      cribo_init_nested_package sys := by
  cases h : alookup "__cribo_2657f2_nested_package" sys with
  | some m =>
      rw [cribo_init_nested_package_cached sys m h,
        cribo_init_nested_package_cached sys m h]
  | none =>
      obtain ⟨h1, _, _⟩ := cribo_init_nested_package_fresh sys h
      exact cribo_init_nested_package_cached _ _ h1

theorem runLeafInit_protocol (syn dotted file : String) (body : List (String × PyVal))
    (hne : dotted ≠ syn) (sys : SysModules) :
    (∀ m, alookup syn sys = some m → runLeafInit syn dotted file body sys = (m, sys)) ∧
      (alookup syn sys = none →
        alookup syn (runLeafInit syn dotted file body sys).2 =
            some (runLeafInit syn dotted file body sys).1 ∧
          alookup dotted (runLeafInit syn dotted file body sys).2 =
            some (runLeafInit syn dotted file body sys).1 ∧
          (runLeafInit syn dotted file body sys).1.attrs = body) ∧
      runLeafInit syn dotted file body (runLeafInit syn dotted file body sys).2 =
        runLeafInit syn dotted file body sys :=
  ⟨fun m h => runLeafInit_cached syn dotted file body sys m h,
   fun h => runLeafInit_registers syn dotted file body sys h hne,
   runLeafInit_idem syn dotted file body sys hne⟩

theorem find_spec_reg_present (dotted syn : String)
    (hreg : alookup dotted criboModules = some syn) (sys : SysModules)
    (h : (alookup syn sys).isSome = true) :
    find_spec criboModules criboInitFunctions dotted sys = (some syn, sys) := by
  unfold find_spec
  rw [hreg]
  simp [h, importlibFindSpec]

theorem find_spec_reg_absent (dotted syn : String)
    (f : SysModules → PyModule × SysModules)
    (hreg : alookup dotted criboModules = some syn)
    (hf : alookup syn criboInitFunctions = some f) (sys : SysModules)
    (h : alookup syn sys = none) :
    find_spec criboModules criboInitFunctions dotted sys =
      (importlibFindSpec syn (f sys).2, (f sys).2) := by
  unfold find_spec
  rw [hreg]
  simp [h, hf]

theorem find_spec_unregistered (fullname : String)
    (h : alookup fullname criboModules = none) (sys : SysModules) :
    find_spec criboModules criboInitFunctions fullname sys = (none, sys) := by
  unfold find_spec
  rw [h]

/-- C2: every wrapped module of the emitted bundle obeys the two-step
runtime protocol: if its synthetic id is already a key of the runtime
module table the init function returns the registered object and leaves
the table unchanged (so a second call returns exactly the result of the
first call), and otherwise it creates a fresh module object, registers it
under both the synthetic id and the original dotted name, populates its
bindings, and returns it. -/
theorem wrapped_init_two_step_protocol :
    ∀ w ∈ bundleInits, ∀ sys : SysModules,
      (∀ m, alookup w.syn sys = some m → w.initF sys = (m, sys)) ∧
        (alookup w.syn sys = none →
          alookup w.syn (w.initF sys).2 = some (w.initF sys).1 ∧
            alookup w.dotted (w.initF sys).2 = some (w.initF sys).1 ∧
            (w.initF sys).1.attrs = w.bodyAttrs) ∧
        w.initF (w.initF sys).2 = w.initF sys := by
  intro w hw sys
  simp only [bundleInits, List.mem_cons, List.not_mem_nil, or_false] at hw
  rcases hw with rfl | rfl | rfl | rfl | rfl
  · simpa only [cribo_init_main] using
      runLeafInit_protocol "__cribo_341a42_main" "main" _ [] (by decide) sys
  · simpa only [cribo_init_simple_module] using
      runLeafInit_protocol "__cribo_ee784c_simple_module" "simple_module" _
        simpleModuleAttrs (by decide) sys
  · exact ⟨fun m h => cribo_init_nested_package_cached sys m h,
      fun h => cribo_init_nested_package_fresh sys h,
      cribo_init_nested_package_idem sys⟩
  · simpa only [cribo_init_nested_package_submodule] using
      runLeafInit_protocol "__cribo_e9952d_nested_package_submodule"
        "nested_package.submodule" _ submoduleAttrs (by decide) sys
  · simpa only [cribo_init_nested_package_utils] using
      runLeafInit_protocol "__cribo_62e3ba_nested_package_utils"
        "nested_package.utils" _ utilsAttrs (by decide) sys

theorem wrapped_init_two_step_protocol_witness :
    alookup "simple_module" (cribo_init_simple_module []).2 =
        some (cribo_init_simple_module []).1 ∧
      (cribo_init_simple_module []).1.attrs = simpleModuleAttrs ∧
      cribo_init_simple_module (cribo_init_simple_module []).2 =
        cribo_init_simple_module [] := by
  have h := wrapped_init_two_step_protocol
    ⟨"__cribo_ee784c_simple_module", "simple_module", cribo_init_simple_module,
      simpleModuleAttrs⟩
    (by simp [bundleInits]) []
  obtain ⟨-, h2, h3⟩ := h
  obtain ⟨-, h4, h5⟩ := h2 rfl
  exact ⟨h4, h5, h3⟩

/-- For every registry row, the synthetic id has an init function in the
table, and running that init function on a state lacking the synthetic id
registers it. -/
theorem init_table_registers :
    ∀ p ∈ criboModules,
      ∃ f, alookup p.2 criboInitFunctions = some f ∧
        ∀ sys : SysModules, alookup p.2 sys = none →
          (alookup p.2 (f sys).2).isSome = true := by
  intro p hp
  simp only [criboModules, List.mem_cons, List.not_mem_nil, or_false] at hp
  rcases hp with rfl | rfl | rfl | rfl | rfl
  · refine ⟨cribo_init_main, rfl, fun sys h => ?_⟩
    simp only [cribo_init_main]
    rw [(runLeafInit_registers _ _ _ _ sys h (by decide)).1]
    rfl
  · refine ⟨cribo_init_simple_module, rfl, fun sys h => ?_⟩
    simp only [cribo_init_simple_module]
    rw [(runLeafInit_registers _ _ _ _ sys h (by decide)).1]
    rfl
  · refine ⟨cribo_init_nested_package, rfl, fun sys h => ?_⟩
    rw [(cribo_init_nested_package_fresh sys h).1]
    rfl
  · refine ⟨cribo_init_nested_package_submodule, rfl, fun sys h => ?_⟩
    simp only [cribo_init_nested_package_submodule]
    rw [(runLeafInit_registers _ _ _ _ sys h (by decide)).1]
    rfl
  · refine ⟨cribo_init_nested_package_utils, rfl, fun sys h => ?_⟩
    simp only [cribo_init_nested_package_utils]
    rw [(runLeafInit_registers _ _ _ _ sys h (by decide)).1]
    rfl

/-- C3: after the bundle installs its meta-path finder, `find_spec`
intercepts every original dotted name present in the module registry:
when the synthetic module is already registered it resolves through the
synthetic name at once; when it is not, it runs the corresponding init
function from the table (after which the synthetic module is registered)
and resolves through the synthetic name; names outside the registry are
declined. -/
theorem find_spec_routes_through_init :
    (∀ p ∈ criboModules, ∀ sys : SysModules,
        (alookup p.2 sys).isSome = true →
          find_spec criboModules criboInitFunctions p.1 sys = (some p.2, sys)) ∧
      (∀ p ∈ criboModules, ∀ sys : SysModules,
        alookup p.2 sys = none →
          ∃ f, alookup p.2 criboInitFunctions = some f ∧
            find_spec criboModules criboInitFunctions p.1 sys = (some p.2, (f sys).2) ∧
            (alookup p.2 (f sys).2).isSome = true) ∧
      (∀ fullname, alookup fullname criboModules = none → ∀ sys : SysModules,
        find_spec criboModules criboInitFunctions fullname sys = (none, sys)) := by
  refine ⟨?_, ?_, fun fullname h sys => find_spec_unregistered fullname h sys⟩
  · intro p hp sys h
    have hreg : alookup p.1 criboModules = some p.2 := by
      simp only [criboModules, List.mem_cons, List.not_mem_nil, or_false] at hp
      rcases hp with rfl | rfl | rfl | rfl | rfl <;> rfl
    exact find_spec_reg_present p.1 p.2 hreg sys h
  · intro p hp sys h
    have hreg : alookup p.1 criboModules = some p.2 := by
      simp only [criboModules, List.mem_cons, List.not_mem_nil, or_false] at hp
      rcases hp with rfl | rfl | rfl | rfl | rfl <;> rfl
    obtain ⟨f, hf, hrun⟩ := init_table_registers p hp
    refine ⟨f, hf, ?_, hrun sys h⟩
    rw [find_spec_reg_absent p.1 p.2 f hreg hf sys h]
    simp [importlibFindSpec, hrun sys h]

theorem find_spec_routes_witness :
    find_spec criboModules criboInitFunctions "simple_module" [] =
        (some "__cribo_ee784c_simple_module", (cribo_init_simple_module []).2) ∧
      (alookup "__cribo_ee784c_simple_module" (cribo_init_simple_module []).2).isSome =
        true := by
  obtain ⟨-, h2, -⟩ := find_spec_routes_through_init
  obtain ⟨f, hf, hres, hreg⟩ := h2 ("simple_module", "__cribo_ee784c_simple_module")
    (by simp [criboModules]) [] rfl
  have hfe : f = cribo_init_simple_module := by
    rw [show alookup "__cribo_ee784c_simple_module" criboInitFunctions =
      some cribo_init_simple_module from rfl] at hf
    exact (Option.some.injEq _ _ ▸ hf).symm
  rw [hfe] at hres hreg
  exact ⟨hres, hreg⟩

/-- C10: every synthetic id stored as a value of the module registry
`__cribo_modules` is a key of the init-function table
`__cribo_init_functions`, so the finder's lookup never yields `None` for
an intercepted name — the `find_spec` branch that skips initialization
because no init function exists is unreachable — and consequently
`find_spec` always leaves the synthetic module registered. -/
theorem registry_values_have_init_functions :
    (∀ p ∈ criboModules, alookup p.2 criboInitFunctions ≠ none) ∧
      (∀ p ∈ criboModules, ∀ sys : SysModules, alookup p.2 sys = none →
        (alookup p.2 (find_spec criboModules criboInitFunctions p.1 sys).2).isSome =
          true) := by
  constructor
  · intro p hp
    obtain ⟨f, hf, -⟩ := init_table_registers p hp
    rw [hf]
    exact fun hc => Option.noConfusion hc
  · intro p hp sys h
    have hreg : alookup p.1 criboModules = some p.2 := by
      simp only [criboModules, List.mem_cons, List.not_mem_nil, or_false] at hp
      rcases hp with rfl | rfl | rfl | rfl | rfl <;> rfl
    obtain ⟨f, hf, hrun⟩ := init_table_registers p hp
    rw [find_spec_reg_absent p.1 p.2 f hreg hf sys h]
    exact hrun sys h

theorem registry_values_witness :
    alookup "__cribo_ee784c_simple_module" criboInitFunctions ≠ none ∧
      (alookup "__cribo_ee784c_simple_module"
        (find_spec criboModules criboInitFunctions "simple_module" []).2).isSome =
        true := by
  refine ⟨registry_values_have_init_functions.1
    ("simple_module", "__cribo_ee784c_simple_module") (by simp [criboModules]),
    registry_values_have_init_functions.2
      ("simple_module", "__cribo_ee784c_simple_module") (by simp [criboModules]) [] rfl⟩

/-- C6: a star import from a module with a static literal `__all__` binds
exactly the listed names, and in the emitted bundle the module built by
`__cribo_init___cribo_ee784c_simple_module` star-exports exactly
`public_func` and `CONSTANT`; `_private_func` is not bound by the
star-import even though its definition is present among the module's
attributes. -/
theorem star_import_honors_all :
    (∀ (m : PyModule) (names : List String),
        alookup "__all__" m.attrs = some (.pstrlist names) →
          starImportBindings m = names) ∧
      (∀ sys : SysModules, alookup "__cribo_ee784c_simple_module" sys = none →
        starImportBindings (cribo_init_simple_module sys).1 =
            ["public_func", "CONSTANT"] ∧
          "_private_func" ∉ starImportBindings (cribo_init_simple_module sys).1 ∧
          (alookup "_private_func" (cribo_init_simple_module sys).1.attrs).isSome =
            true) := by
  constructor
  · intro m names h
    simp [starImportBindings, h]
  · intro sys h
    simp only [cribo_init_simple_module]
    rw [runLeafInit_fresh _ _ _ _ sys h]
    refine ⟨rfl, ?_, rfl⟩
    show "_private_func" ∉ starImportBindings
      ⟨"__cribo_ee784c_simple_module", "all_variable_handling/simple_module.py",
        simpleModuleAttrs⟩
    decide

theorem star_import_honors_all_witness :
    starImportBindings (cribo_init_simple_module []).1 =
        ["public_func", "CONSTANT"] ∧
      "_private_func" ∉ starImportBindings (cribo_init_simple_module []).1 ∧
      (alookup "_private_func" (cribo_init_simple_module []).1.attrs).isSome = true :=
  star_import_honors_all.2 [] rfl

/-! ## Planner lemmas -/

theorem takenLookup_eq_none (name : String) (l : List TakenEntry) :
    takenLookup name l = none ↔ ∀ e ∈ l, e.emitted ≠ name := by
  induction l with
  | nil => simp [takenLookup]
  | cons e rest ih =>
      by_cases he : e.emitted = name
      · simp [takenLookup, he]
      · simp [takenLookup, he, ih]

theorem takenLookup_eq_some (name : String) (l : List TakenEntry) (e : TakenEntry)
    (h : takenLookup name l = some e) : e ∈ l ∧ e.emitted = name := by
  induction l with
  | nil => simp [takenLookup] at h
  | cons e' rest ih =>
      by_cases he : e'.emitted = name
      · rw [takenLookup, if_pos he] at h
        obtain rfl := (Option.some.injEq _ _ ▸ h)
        exact ⟨List.mem_cons_self _ _, he⟩
      · rw [takenLookup, if_neg he] at h
        obtain ⟨hm, hn⟩ := ih h
        exact ⟨List.mem_cons_of_mem _ hm, hn⟩

theorem maxKeyLen_ge (keys : List String) : ∀ s ∈ keys, s.length ≤ maxKeyLen keys := by
  induction keys with
  | nil => simp
  | cons k rest ih =>
      intro s hs
      rcases List.mem_cons.1 hs with rfl | hs
      · exact le_max_left _ _
      · exact le_trans (ih s hs) (le_max_right _ _)

theorem underscorePad_length (n : Nat) : (underscorePad n).length = n := by
  simp [underscorePad, String.length]

theorem chooseEmitted_fresh (taken : List TakenEntry) (slug name : String) :
    ∀ e ∈ taken, e.emitted ≠ chooseEmitted taken slug name := by
  intro e he
  unfold chooseEmitted
  have hmem : e.emitted ∈ taken.map TakenEntry.emitted := List.mem_map_of_mem _ he
  split
  · intro hc
    have hlen := congrArg String.length hc
    rw [String.length_append, underscorePad_length] at hlen
    have hle : e.emitted.length ≤ maxKeyLen (taken.map TakenEntry.emitted) :=
      maxKeyLen_ge _ _ hmem
    omega
  · intro hc
    exact (by assumption : ¬ _) (hc ▸ hmem)

theorem planBinding_inv (slug : String) (mid : Nat) (b : SymBinding) (st : PlanState)
    (h : PlanInv st) : PlanInv (planBinding slug mid st b) := by
  have hinj : ∀ x ∈ st.taken, ∀ y ∈ st.taken,
      TakenEntry.emitted x = TakenEntry.emitted y → x = y :=
    List.inj_on_of_nodup_map h.nodupKeys
  cases hl : takenLookup b.name st.taken with
  | none =>
      have hfresh : ∀ e ∈ st.taken, e.emitted ≠ b.name :=
        (takenLookup_eq_none _ _).1 hl
      simp only [planBinding, hl]
      constructor
      · simp only [List.map_append, List.map_cons, List.map_nil]
        rw [List.nodup_append]
        refine ⟨h.nodupKeys, List.nodup_singleton _, ?_⟩
        intro x hx hx2
        simp only [List.mem_singleton] at hx2
        obtain ⟨e, he, hee⟩ := List.mem_map.1 hx
        exact hfresh e he (hx2 ▸ hee)
      · intro r hr
        rcases List.mem_append.1 hr with hr | hr
        · obtain ⟨e, he, hee⟩ := h.rowsCovered r hr
          exact ⟨e, List.mem_append_left _ he, hee⟩
        · simp only [List.mem_singleton] at hr
          subst hr
          exact ⟨⟨b.name, some b.origin⟩, List.mem_append_right _ (by simp), rfl⟩
      · intro e he hnone r1 hr1 r2 hr2 h1 h2
        have heold : e ∈ st.taken := by
          rcases List.mem_append.1 he with he | he
          · exact he
          · simp only [List.mem_singleton] at he
            subst he
            simp at hnone
        rcases List.mem_append.1 hr1 with hr1 | hr1
        · rcases List.mem_append.1 hr2 with hr2 | hr2
          · exact h.reservedUnique e heold hnone r1 hr1 r2 hr2 h1 h2
          · simp only [List.mem_singleton] at hr2
            subst hr2
            exact absurd h2.symm (hfresh e heold)
        · simp only [List.mem_singleton] at hr1
          subst hr1
          exact absurd h1.symm (hfresh e heold)
      · intro r hr
        rcases List.mem_append.1 hr with hr | hr
        · rcases h.identityOrReserved r hr with hid | ⟨e, he, hee, hnone⟩
          · exact Or.inl hid
          · exact Or.inr ⟨e, List.mem_append_left _ he, hee, hnone⟩
        · simp only [List.mem_singleton] at hr
          subst hr
          exact Or.inl rfl
  | some e0 =>
      obtain ⟨he0mem, he0name⟩ := takenLookup_eq_some _ _ _ hl
      by_cases horig : e0.origin = some b.origin
      · simp only [planBinding, hl, if_pos horig]
        constructor
        · exact h.nodupKeys
        · intro r hr
          rcases List.mem_append.1 hr with hr | hr
          · exact h.rowsCovered r hr
          · simp only [List.mem_singleton] at hr
            subst hr
            exact ⟨e0, he0mem, he0name⟩
        · intro e he hnone r1 hr1 r2 hr2 h1 h2
          have hne0 : e ≠ e0 := by
            intro hc
            rw [hc, horig] at hnone
            exact Option.noConfusion hnone
          have hnames : e.emitted ≠ b.name := by
            intro hc
            exact hne0 (hinj e he e0 he0mem (hc.trans he0name.symm))
          rcases List.mem_append.1 hr1 with hr1 | hr1
          · rcases List.mem_append.1 hr2 with hr2 | hr2
            · exact h.reservedUnique e he hnone r1 hr1 r2 hr2 h1 h2
            · simp only [List.mem_singleton] at hr2
              subst hr2
              exact absurd h2.symm hnames
          · simp only [List.mem_singleton] at hr1
            subst hr1
            exact absurd h1.symm hnames
        · intro r hr
          rcases List.mem_append.1 hr with hr | hr
          · exact h.identityOrReserved r hr
          · simp only [List.mem_singleton] at hr
            subst hr
            exact Or.inl rfl
      · simp only [planBinding, hl, if_neg horig]
        have hfresh : ∀ e ∈ st.taken,
            e.emitted ≠ chooseEmitted st.taken slug b.name :=
          chooseEmitted_fresh st.taken slug b.name
        constructor
        · simp only [List.map_append, List.map_cons, List.map_nil]
          rw [List.nodup_append]
          refine ⟨h.nodupKeys, List.nodup_singleton _, ?_⟩
          intro x hx hx2
          simp only [List.mem_singleton] at hx2
          obtain ⟨e, he, hee⟩ := List.mem_map.1 hx
          exact hfresh e he (hx2 ▸ hee)
        · intro r hr
          rcases List.mem_append.1 hr with hr | hr
          · obtain ⟨e, he, hee⟩ := h.rowsCovered r hr
            exact ⟨e, List.mem_append_left _ he, hee⟩
          · simp only [List.mem_singleton] at hr
            subst hr
            exact ⟨⟨chooseEmitted st.taken slug b.name, none⟩,
              List.mem_append_right _ (by simp), rfl⟩
        · intro e he hnone r1 hr1 r2 hr2 h1 h2
          rcases List.mem_append.1 he with he | he
          · rcases List.mem_append.1 hr1 with hr1 | hr1
            · rcases List.mem_append.1 hr2 with hr2 | hr2
              · exact h.reservedUnique e he hnone r1 hr1 r2 hr2 h1 h2
              · simp only [List.mem_singleton] at hr2
                subst hr2
                exact absurd h2.symm (hfresh e he)
            · simp only [List.mem_singleton] at hr1
              subst hr1
              exact absurd h1.symm (hfresh e he)
          · simp only [List.mem_singleton] at he
            subst he
            have hold : ∀ r ∈ st.rows,
                r.emitted ≠ chooseEmitted st.taken slug b.name := by
              intro r hr hc
              obtain ⟨e', he', hee'⟩ := h.rowsCovered r hr
              exact hfresh e' he' (hee'.trans hc)
            rcases List.mem_append.1 hr1 with hr1 | hr1
            · exact absurd h1 (hold r1 hr1)
            · rcases List.mem_append.1 hr2 with hr2 | hr2
              · exact absurd h2 (hold r2 hr2)
              · simp only [List.mem_singleton] at hr1 hr2
                rw [hr1, hr2]
        · intro r hr
          rcases List.mem_append.1 hr with hr | hr
          · rcases h.identityOrReserved r hr with hid | ⟨e, he, hee, hnone⟩
            · exact Or.inl hid
            · exact Or.inr ⟨e, List.mem_append_left _ he, hee, hnone⟩
          · simp only [List.mem_singleton] at hr
            subst hr
            exact Or.inr ⟨⟨chooseEmitted st.taken slug b.name, none⟩,
              List.mem_append_right _ (by simp), rfl, rfl⟩

theorem planFold_inv (slug : String) (mid : Nat) :
    ∀ (l : List SymBinding) (st : PlanState), PlanInv st →
      PlanInv (l.foldl (planBinding slug mid) st)
  | [], _, h => h
  | b :: l, st, h =>
      planFold_inv slug mid l (planBinding slug mid st b) (planBinding_inv slug mid b st h)

theorem planModule_inv (st : PlanState) (m : ModuleSyms) (h : PlanInv st) :
    PlanInv (planModule st m) :=
  planFold_inv m.slug m.mid m.binds st h

theorem modulesFold_inv :
    ∀ (mods : List ModuleSyms) (st : PlanState), PlanInv st →
      PlanInv (mods.foldl planModule st)
  | [], _, h => h
  | m :: mods, st, h => modulesFold_inv mods (planModule st m) (planModule_inv st m h)

theorem planInv_empty : PlanInv ⟨[], []⟩ := by
  constructor <;> simp

theorem sharedOnly_of_inv (st : PlanState) (h : PlanInv st) :
    SharedOnlyDeliberately st.rows := by
  intro r1 hr1 r2 hr2 heq hkey
  rcases h.identityOrReserved r1 hr1 with hid1 | ⟨e, he, hee, hnone⟩
  · rcases h.identityOrReserved r2 hr2 with hid2 | ⟨e, he, hee, hnone⟩
    · exact ⟨hid1, hid2, by rw [← hid1, ← hid2, heq]⟩
    · have : r1 = r2 :=
        h.reservedUnique e he hnone r1 hr1 r2 hr2 (heq.trans hee.symm) hee.symm
      exact absurd (congrArg rowKey this) hkey
  · have : r1 = r2 :=
      h.reservedUnique e he hnone r1 hr1 r2 hr2 hee.symm (heq.symm.trans hee.symm)
    exact absurd (congrArg rowKey this) hkey

/-- C1 (amended to §3's invariant): in every rename plan the planner
produces, two distinct rows map to the same emitted name only when both
rows are identity and their original names coincide; the strict §8 form
(`m1 == m2` and `n1 == n2`) fails on plans with deliberately
shared import bindings. -/
theorem rename_plan_collisions_only_deliberate (mods : List ModuleSyms) :
    SharedOnlyDeliberately (computeRenamePlan mods) :=
  sharedOnly_of_inv (mods.foldl planModule ⟨[], []⟩)
    (modulesFold_inv mods ⟨[], []⟩ planInv_empty)

/-- C1 counterexample: on a two-module input where module 2 holds
the import binding `from <module 1> import n`, the plan maps both `(1, n)`
and `(2, n)` to the emitted name `n`, refuting strict rename injectivity
as stated in §8. -/
theorem rename_plan_strict_injectivity_fails :
    computeRenamePlan c1DemoMods = [⟨1, "n", "n"⟩, ⟨2, "n", "n"⟩] ∧
      ¬ StrictInjective (computeRenamePlan c1DemoMods) := by
  constructor
  · decide
  · decide

/-- C7 counterexample: on the class-name-collision fixture the §4.G
planner leaves `models.User` under its original name `User` — the first
module to claim a name keeps it, only the later `entities.User` receives
a collision suffix — so the output defines no `User_models`. -/
theorem class_collision_no_user_models :
    planEmitted classCollisionPlan 1 "User" = some "User" ∧
      ∀ r ∈ classCollisionPlan, r.emitted ≠ "User_models" := by
  constructor
  · decide
  · decide

/-- C7 (amended): the bundled output defines models' class under its
original name `User` (the first claimant of a colliding name is not
renamed by §4.G step 3) and entities' class under `User_entities`, the
suffix `<name>_<module_slug>` with `module_slug` the module's dotted
path; the entry's aliases `ModelUser` and `EntityUser` resolve to exactly
those emitted names, and the plan satisfies §3's sharing invariant. -/
theorem class_collision_renames :
    planEmitted classCollisionPlan 1 "User" = some "User" ∧
      planEmitted classCollisionPlan 2 "User" = some "User_entities" ∧
      resolveOrigin classCollisionPlan (1, "User") = some "User" ∧
      resolveOrigin classCollisionPlan (2, "User") = some "User_entities" ∧
      planEmitted classCollisionPlan 0 "ModelUser" = some "ModelUser" ∧
      planEmitted classCollisionPlan 0 "EntityUser" = some "EntityUser" ∧
      SharedOnlyDeliberately classCollisionPlan := by
  refine ⟨by decide, by decide, by decide, by decide, by decide, by decide, by decide⟩

/-- C4: the module graph of the `unresolvable_patterns` fixture —
`constants_a.A_VALUE = B_VALUE + 1` against
`constants_b.B_VALUE = A_VALUE * 2`, both at module level — forms a
wrap-required cycle with a temporal-paradox edge, so the bundler emits
the `UnresolvableCycle` diagnostic, produces no output, and exits
nonzero. -/
theorem unresolvable_constants_cycle :
    analyzeCycles [constants_a, constants_b] =
        .error BundleError.unresolvableCycle ∧
      bundlerExitCode [constants_a, constants_b] = 1 ∧
      bundlerExitCode [constants_a, constants_b] ≠ 0 := by
  refine ⟨by rfl, by decide, by decide⟩

/-- C5 counterexample: the fixture defines
`process_data(value) = (value + len("utility")) * 2`, so
`process_data(10)` evaluates to `34`, not `18` as the claim states. -/
theorem process_data_ten_is_not_eighteen :
    process_data 10 = 34 ∧ process_data 10 ≠ 18 := by
  decide

/-- C5 (amended): in the function-level cycle scenario the graph builder
records both imports as function-level edges, no module-level edge (hence
no module-level cycle) exists, both modules are inlined, and executing
the bundled code yields `process_data(10) == 34`. -/
theorem function_level_cycle_inlined :
    graphEdges [function_module, helper_module] =
        [⟨"function_module", "helper_module", .fromImport, .functionLevel⟩,
         ⟨"helper_module", "function_module", .fromImport, .functionLevel⟩] ∧
      moduleLevelEdges [function_module, helper_module] = [] ∧
      analyzeCycles [function_module, helper_module] =
        .ok [("function_module", .inline), ("helper_module", .inline)] ∧
      process_data 10 = 34 := by
  refine ⟨by decide, by decide, by rfl, by decide⟩

/-- Positional ordering of a future-only block followed by a future-free
block. -/
theorem append_filter_ordering (F R : List PyStmt)
    (hF : ∀ s ∈ F, isFutureImport s = true)
    (hR : ∀ s ∈ R, isFutureImport s = false) :
    ∀ (i j : Nat) (hi : i < (F ++ R).length) (hj : j < (F ++ R).length),
      isFutureImport ((F ++ R).get ⟨i, hi⟩) = true →
      isFutureImport ((F ++ R).get ⟨j, hj⟩) = false → i < j := by
  intro i j hi hj hfi hfj
  by_cases hjF : j < F.length
  · exfalso
    have hget : (F ++ R).get ⟨j, hj⟩ = F.get ⟨j, hjF⟩ := by
      rw [List.get_eq_getElem, List.get_eq_getElem, List.getElem_append_left]
    rw [hget] at hfj
    rw [hF (F.get ⟨j, hjF⟩) (List.get_mem F j hjF)] at hfj
    exact Bool.noConfusion hfj
  · by_cases hiF : i < F.length
    · omega
    · exfalso
      have hle : F.length ≤ i := Nat.le_of_not_lt hiF
      have hbound : i - F.length < R.length := by
        rw [List.length_append] at hi
        omega
      have hget : (F ++ R).get ⟨i, hi⟩ = R.get ⟨i - F.length, hbound⟩ := by
        rw [List.get_eq_getElem, List.get_eq_getElem, List.getElem_append_right hle]
      rw [hget] at hfi
      rw [hR (R.get ⟨i - F.length, hbound⟩) (List.get_mem R _ _)] at hfi
      exact Bool.noConfusion hfi

/-- C8: for every emitter input — in particular one whose source declared
a `__future__` import after other statements, as in the
`late_future_imports` fixture — every `__future__` import of the emitted
output is placed before every other statement of the output. -/
theorem future_imports_precede_all (inp : EmitterInput) :
    ∀ (i j : Nat) (hi : i < (emitOutput inp).length)
      (hj : j < (emitOutput inp).length),
      isFutureImport ((emitOutput inp).get ⟨i, hi⟩) = true →
      isFutureImport ((emitOutput inp).get ⟨j, hj⟩) = false → i < j := by
  intro i j hi hj hfi hfj
  exact append_filter_ordering
    ((allSectionStmts inp).filter isFutureImport)
    ((allSectionStmts inp).filter (fun s => !(isFutureImport s)))
    (fun s hs => (List.mem_filter.1 hs).2)
    (fun s hs => by simpa using (List.mem_filter.1 hs).2)
    i j hi hj hfi hfj

theorem future_imports_precede_all_witness :
    isFutureImport ((emitOutput lateFutureEmitterInput).get ⟨0, by decide⟩) = true ∧
      isFutureImport ((emitOutput lateFutureEmitterInput).get ⟨1, by decide⟩) = false ∧
      (0 : Nat) < 1 :=
  ⟨by decide, by decide,
   future_imports_precede_all lateFutureEmitterInput 0 1 (by decide) (by decide)
     (by decide) (by decide)⟩

/-- C9: bundling is a pure function of the declared inputs, so two runs
over identical inputs produce identical artifacts; and the module IDs of
the artifact are exactly `0, 1, 2, …` in worklist-insertion (discovery)
order. -/
theorem bundler_deterministic (prog : List (String × List String))
    (inp : BundleInput) :
    bundleArtifact prog inp = bundleArtifact prog inp ∧
      (bundleArtifact prog inp).2.map Prod.snd =
        List.range (bundleArtifact prog inp).1.length := by
  refine ⟨rfl, ?_⟩
  show (assignModuleIds (discoverModules prog inp.entry)).map Prod.snd = _
  unfold assignModuleIds
  rw [List.map_map]
  have hcomp : (Prod.snd ∘ fun p : Nat × String => (p.2, p.1)) =
      (Prod.fst : Nat × String → Nat) := rfl
  rw [hcomp, List.enum_map_fst]
  rfl

end Cribo
